import Mathlib

/-!
Verification of the Port-Hamiltonian neural-network trainer.

The development shallowly embeds the two training engines of the repository:
`PHNN/numpy_simple.py` (a low-level linear predictor with a closed-form
gradient, batch-averaged loss/gradient, an explicit structure matrix `F`, an
ODE-driven training loop and an accuracy evaluator) and the state/record
assembly of `PHNN/phnn.py` (the sparse `F` matrix, the flatten/unflatten state
codec, the `forward` vector-field assembly and the `pred_accuracy` evaluator).

Real arithmetic of the Python code is modelled over an arbitrary linear ordered
field `K`; the theorems about analytic derivatives instantiate `K := ℝ`, the
executable witnesses instantiate `K := ℚ`.  The external ODE integrator
(`scipy.integrate.odeint`) is passed to the training loop as an abstract
function, exactly as the spec's integrator contract describes.
-/

namespace NumpySimple

variable {K : Type} [LinearOrderedField K]

/-- `np.hstack` of two fixed-size vectors: the first `m` entries come from `f`,
the rest from `g`. -/
def hstack {m n : ℕ} (f : Fin m → K) (g : Fin n → K) : Fin (m + n) → K :=
  fun i => if h : (i : ℕ) < m then f ⟨i, h⟩ else g ⟨(i : ℕ) - m, by omega⟩

/-- Dot product `v.dot(v')` of two `numpy` vectors. -/
def dot {m : ℕ} (v v' : Fin m → K) : K := ∑ i, v i * v' i

/-- First half `w = x[0:n]` of the flat state (the weights), for the fixed
state length `2*n = 12` of `numpy_simple.py`. -/
def wHalf (x : Fin 12 → K) : Fin 6 → K := fun k => x (Fin.castAdd 6 k)

/-- Second half `dw = x[n:2*n]` of the flat state (the weight velocities). -/
def dwHalf (x : Fin 12 → K) : Fin 6 → K := fun k => x (Fin.natAdd 6 k)

/-- `simple_net(u, w)`: the 2-input/2-output linear network
`y1 = w11*u1 + w12*u2 + w13`, `y2 = w21*u1 + w22*u2 + w23`. -/
def simple_net (u : Fin 2 → K) (w : Fin 6 → K) : Fin 2 → K :=
  fun j => if j = 0 then w 0 * u 0 + w 1 * u 1 + w 2 else w 3 * u 0 + w 4 * u 1 + w 5

/-- `loss(x, u, yh, a, b, c) = a*J.dot(J) + b*dw.dot(dw) + c*w.dot(w)` with
`J = yh - simple_net(u, w)`. -/
def loss (x : Fin 12 → K) (u yh : Fin 2 → K) (a b c : K) : K :=
  let w := wHalf x
  let dw := dwHalf x
  let J : Fin 2 → K := fun j => yh j - simple_net u w j
  a * dot J J + b * dot dw dw + c * dot w w

/-- `gradient(x, u, yh, a, b, c)`: the closed-form gradient of `loss`, the
`hstack` of the data-term gradient `dJ_w` and velocity gradient `dJ_dw = 2b*dw`
plus the regularisation vector `dJr = [2c*w ; 0]`. -/
def gradient (x : Fin 12 → K) (u yh : Fin 2 → K) (a b c : K) : Fin 12 → K :=
  let w := wHalf x
  let dw := dwHalf x
  let y := simple_net u w
  let dJ_w : Fin 6 → K := fun k =>
    2 * a * (if k = 0 then u 0 * (y 0 - yh 0) else if k = 1 then u 1 * (y 0 - yh 0)
      else if k = 2 then y 0 - yh 0 else if k = 3 then u 0 * (y 1 - yh 1)
      else if k = 4 then u 1 * (y 1 - yh 1) else y 1 - yh 1)
  let dJ_dw : Fin 6 → K := fun k => 2 * b * dw k
  let dJr : Fin 12 → K := hstack (fun k => 2 * c * w k) (fun _ : Fin 6 => (0 : K))
  fun i => hstack dJ_w dJ_dw i + dJr i

/-- `hamiltonian_model(x, t, u, yh, beta, a, b, c)`: the single-sample vector
field `dwdt = dJ[n:2n]/b`, `ddwdt = -dJ[0:n] - beta*dJ[n:2n]/b`. -/
def hamiltonian_model (x : Fin 12 → K) (t : K) (u yh : Fin 2 → K)
    (beta a b c : K) : Fin 12 → K :=
  let dJ := gradient x u yh a b c
  let dwdt : Fin 6 → K := fun i => dJ (Fin.natAdd 6 i) / b
  let ddwdt : Fin 6 → K := fun i =>
    -dJ (Fin.castAdd 6 i) - beta * dJ (Fin.natAdd 6 i) / b
  hstack dwdt ddwdt

/-- Default sample used to model in-bounds `numpy` indexing via `List.getD`. -/
def zero2 : Fin 2 → K := fun _ => 0

/-- `loss_batch(bs, x, U, Yh, a, b, c)`: accumulates `loss` over the first `bs`
samples of the batch and divides by `bs`. -/
def loss_batch (bs : ℕ) (x : Fin 12 → K) (U Yh : List (Fin 2 → K))
    (a b c : K) : K :=
  (∑ i ∈ Finset.range bs, loss x (U.getD i zero2) (Yh.getD i zero2) a b c) / (bs : K)

/-- `gradient_batch(bs, x, U, Yh, a, b, c)`: accumulates `gradient` over the
first `bs` samples of the batch and divides by `bs`, componentwise. -/
def gradient_batch (bs : ℕ) (x : Fin 12 → K) (U Yh : List (Fin 2 → K))
    (a b c : K) : Fin 12 → K :=
  fun j =>
    (∑ i ∈ Finset.range bs, gradient x (U.getD i zero2) (Yh.getD i zero2) a b c j) / (bs : K)

/-- The dense structure matrix `F = [[0, I], [-I, -beta*I]]` assembled by
`ham_mod_batch` from `On = zeros`, `In = eye` and `B = beta*eye` via
`vstack`/`hstack`, written entrywise. -/
def F_dense (n : ℕ) (beta : K) : Fin (n + n) → Fin (n + n) → K :=
  fun i j =>
    if (i : ℕ) < n then
      if (j : ℕ) < n then 0 else if (j : ℕ) - n = (i : ℕ) then 1 else 0
    else
      if (j : ℕ) < n then (if (i : ℕ) - n = (j : ℕ) then -1 else 0)
      else if (i : ℕ) - n = (j : ℕ) - n then -beta else 0

/-- `ham_mod_batch(x, t, bs, U, Yh, beta, a, b, c)`: the batch vector field
`dxdt = F.dot(gradient_batch(...))`. -/
def ham_mod_batch (x : Fin 12 → K) (t : K) (bs : ℕ) (U Yh : List (Fin 2 → K))
    (beta a b c : K) : Fin 12 → K :=
  let dJ := gradient_batch bs x U Yh a b c
  fun i => ∑ j, F_dense 6 beta i j * dJ j

end NumpySimple

namespace Phnn

variable {K : Type} [LinearOrderedField K]

/-- A sparse COO matrix as handed to `torch.sparse.FloatTensor`: a list of
`((row, col), value)` entries; an absent index denotes a zero entry. -/
def sparseToDense : List ((ℕ × ℕ) × K) → ℕ → ℕ → K
  | [], _, _ => 0
  | e :: rest, r, c => (if e.1 = (r, c) then e.2 else 0) + sparseToDense rest r c

/-- `PHNN.makeFMatrix`: the index lists `i1 = [[k, n+k]]`, `i2 = [[n+k, k]]`,
`i3 = [[n+k, n+k]]` for `k < n`, concatenated and paired positionally with the
value list `[ones(n); -ones(n); -beta*ones(n)]`.  It takes only `n` (the flat
parameter count) and `beta` — not the weights. -/
def makeFMatrix (n : ℕ) (beta : K) : List ((ℕ × ℕ) × K) :=
  ((List.range n).map fun k => ((k, n + k), (1 : K)))
    ++ ((List.range n).map fun k => ((n + k, k), (-1 : K)))
    ++ ((List.range n).map fun k => ((n + k, n + k), -beta))


/-- The `dxdt` assembly of `PHNN.forward` on a concatenated flat gradient `g`:
`dxdt[:n] = g[n:2n]`, `dxdt[n:2n] = -g[:n] - beta*g[n:2n]`. -/
def forward_dxdt (n : ℕ) (beta : K) (g : Fin (n + n) → K) : Fin (n + n) → K :=
  fun i => if h : (i : ℕ) < n then g ⟨n + (i : ℕ), by omega⟩
    else -g ⟨(i : ℕ) - n, by omega⟩ - beta * g i

end Phnn

namespace NumpySimple

variable {K : Type} [LinearOrderedField K]

/-- `test(x, Xh, yh, trained, train_test)`: counts the samples `i` with
`y[0] > y[1] and yh[i,0] > yh[i,1]` for `y = simple_net(Xh[i], x)` and returns
`count * 100 / n`.  The `trained` and `train_test` flags only select which
message is printed, so they are omitted. -/
def test (x : Fin 6 → K) (Xh yh : List (Fin 2 → K)) : K :=
  let n := yh.length
  let count := ((List.range n).filter fun i =>
    decide (simple_net (Xh.getD i zero2) x 0 > simple_net (Xh.getD i zero2) x 1)
      && decide ((yh.getD i zero2) 0 > (yh.getD i zero2) 1)).length
  (count : K) * 100 / (n : K)

/-- The placeholder record row `[1, 1, ..., 1]` that `train` stores before the
initial state. -/
def ones12 : Fin 12 → K := fun _ => 1

/-- `X.reshape(nb, bs, 2)` on a list of 2-vectors: `nb` consecutive chunks of
`bs` samples. -/
def chunkList (bs : ℕ) : ℕ → List (Fin 2 → K) → List (List (Fin 2 → K))
  | 0, _ => []
  | nb + 1, l => l.take bs :: chunkList bs nb (l.drop bs)

/-- `np.reshape` to shape `(nb, bs, 2)` raises a `ValueError` (the spec's
`ShapeMismatch`) unless the element count matches exactly. -/
def np_reshape3 (l : List (Fin 2 → K)) (nb bs : ℕ) :
    Except String (List (List (Fin 2 → K))) :=
  if l.length = nb * bs then Except.ok (chunkList bs nb l)
  else Except.error "ShapeMismatch"

/-- The accumulating records of `train`: `(time, state, loss)` histories and
the per-epoch snapshots. -/
structure TrainRec (K : Type) where
  xf : List (Fin 12 → K)
  tf : List K
  J : List K
  xep : List (Fin 12 → K)
  Jep : List K

/-- One inner-loop iteration of `train`: `odeint` (abstracted as `integ`) is
run from the last recorded state `xf[-1]` over batch `(U, Yh)`; the solution
states, the shifted time grid `t + tf[-1]` and the per-state batch losses are
appended to the records. -/
def batchStep
    (integ : (Fin 12 → K) → List (Fin 2 → K) → List (Fin 2 → K) → List (Fin 12 → K))
    (bs : ℕ) (a b c : K) (t : List K) (rec : TrainRec K)
    (U Yh : List (Fin 2 → K)) : TrainRec K :=
  let x0 := rec.xf.getLastD (fun _ => 0)
  let sol := integ x0 U Yh
  ⟨rec.xf ++ sol,
   rec.tf ++ t.map (fun s => s + rec.tf.getLastD 0),
   rec.J ++ sol.map (fun xs => loss_batch bs xs U Yh a b c),
   rec.xep, rec.Jep⟩

/-- One epoch of `train`: the inner loop over the `N_batch` batches followed by
the epoch-end snapshots `xep += [xf[-1]]`, `Jep += [J[-1]]`. -/
def epochStep
    (integ : (Fin 12 → K) → List (Fin 2 → K) → List (Fin 2 → K) → List (Fin 12 → K))
    (bs : ℕ) (a b c : K) (t : List K) (Ub Yhb : List (List (Fin 2 → K)))
    (N_batch : ℕ) (rec : TrainRec K) : TrainRec K :=
  let r := (List.range N_batch).foldl
    (fun r i => batchStep integ bs a b c t r (Ub.getD i []) (Yhb.getD i [])) rec
  ⟨r.xf, r.tf, r.J, r.xep ++ [r.xf.getLastD (fun _ => 0)], r.Jep ++ [r.J.getLastD 0]⟩

/-- `train(X, y, bs, epochs, x0, a, b, c, beta, t)`: reshapes the dataset into
`N_batch = N_tot / bs` batches (erroring like `numpy` when `bs` does not divide
`N_tot`), initialises the records with the epoch-0 placeholders, runs the epoch
loop, and returns `(tf[1:-1], xf[2:-1], J[1:-1], xep[1:-1], Jep)`.  The external
integrator `odeint` is the parameter `integ`; `beta` is only forwarded to it,
which is why it does not appear in the body. -/
def train
    (integ : (Fin 12 → K) → List (Fin 2 → K) → List (Fin 2 → K) → List (Fin 12 → K))
    (X y : List (Fin 2 → K)) (bs epochs : ℕ) (x0 : Fin 12 → K)
    (a b c beta : K) (t : List K) :
    Except String
      (List K × List (Fin 12 → K) × List K × List (Fin 12 → K) × List K) :=
  let N_tot := X.length
  let N_batch := N_tot / bs
  match np_reshape3 X N_batch bs with
  | Except.error e => Except.error e
  | Except.ok Ub =>
    match np_reshape3 y N_batch bs with
    | Except.error e => Except.error e
    | Except.ok Yhb =>
      match Ub, Yhb with
      | U0 :: _, Y0 :: _ =>
        let init : TrainRec K :=
          ⟨[ones12, x0], [0], [0], [ones12, x0], [loss_batch bs x0 U0 Y0 a b c]⟩
        let r := (List.range epochs).foldl
          (fun r _ => epochStep integ bs a b c t Ub Yhb N_batch r) init
        Except.ok ((r.tf.drop 1).dropLast, (r.xf.drop 2).dropLast,
          (r.J.drop 1).dropLast, (r.xep.drop 1).dropLast, r.Jep)
      | _, _ => Except.error "IndexError"

end NumpySimple

namespace Phnn

variable {K : Type} [LinearOrderedField K]

/-- One parameter tensor of the predictor: its `torch` shape and its row-major
flattened contents (`view(-1)`). -/
structure Tensor (K : Type) where
  shape : List ℕ
  data : List K

/-- `PHNN.flattenParamVector`: concatenation of the flattened parameter
tensors, in their stored order. -/
def flattenParamVector (ps : List (Tensor K)) : List K :=
  (ps.map Tensor.data).join

/-- `PHNN.makeStateDict`: walks the parameter entries in order; each receives
the next `numel = shape.prod` scalars of the flat vector, viewed with its
original shape. -/
def makeStateDict : List (Tensor K) → List K → List (Tensor K)
  | [], _ => []
  | p :: rest, flat =>
    ⟨p.shape, flat.take p.shape.prod⟩ :: makeStateDict rest (flat.drop p.shape.prod)

/-- The index returned by `torch.max(v, dim)` on a nonempty vector: the first
index attaining the maximum (a later entry replaces the running best only when
strictly larger). -/
def torchMaxIdx {m : ℕ} (v : Fin (m + 1) → K) : Fin (m + 1) :=
  (List.finRange (m + 1)).foldl (fun best j => if v j > v best then j else best) 0

/-- `PHNN.pred_accuracy(testloader)`: iterates over the loader's batches of
(predictor output, reference label) pairs, counts the samples whose
`torch.max(torch.exp(output), 1)` index equals the label, and returns
`count / tot`.  The external `torch.exp` is passed as the function `e`. -/
def pred_accuracy {m : ℕ} (e : K → K)
    (loader : List (List ((Fin (m + 1) → K) × Fin (m + 1)))) : K :=
  let tot := (loader.map List.length).sum
  let count := (loader.map fun batch =>
    (batch.filter fun d => decide (torchMaxIdx (fun j => e (d.1 j)) = d.2)).length).sum
  (count : K) / (tot : K)

end Phnn

/-! Concrete rational instances used by the executable witnesses. -/

/-- A concrete 12-dimensional state. -/
def xq : Fin 12 → ℚ := fun i => ((i : ℕ) : ℚ)

/-- The all-zero 12-dimensional state. -/
def zq : Fin 12 → ℚ := fun _ => 0

/-- A concrete input sample. -/
def uq : Fin 2 → ℚ := fun j => if j = 0 then 1 else 2

/-- A concrete target sample. -/
def yhq : Fin 2 → ℚ := fun j => if j = 0 then 3 else 5

/-- The all-zero target sample. -/
def yhq0 : Fin 2 → ℚ := fun _ => 0

/-- Weights making `simple_net` output `(0, 1)`: the predicted class is 1. -/
def wq0 : Fin 6 → ℚ := fun k => if k = 5 then 1 else 0

/-- Weights making `simple_net` output `(1, 0)`: the predicted class is 0. -/
def wq1 : Fin 6 → ℚ := fun k => if k = 2 then 1 else 0

/-- A reference output of class 1 (second component larger). -/
def rq1 : Fin 2 → ℚ := fun j => if j = 0 then 0 else 1

/-- A reference output of class 0 (first component larger). -/
def rq0c : Fin 2 → ℚ := fun j => if j = 0 then 1 else 0

/-- A predictor output whose arg-max index is 0. -/
def pq0 : Fin 2 → ℚ := fun j => if j = 0 then 2 else 1

/-- A predictor output whose arg-max index is 1. -/
def pq1 : Fin 2 → ℚ := fun j => if j = 0 then 1 else 3

/-- A concrete integrator stub returning two states per call. -/
def integ0 : (Fin 12 → ℚ) → List (Fin 2 → ℚ) → List (Fin 2 → ℚ) →
    List (Fin 12 → ℚ) := fun _ _ _ => List.replicate 2 (fun _ => 0)

/-- A 10-sample dataset of inputs. -/
def Xq10 : List (Fin 2 → ℚ) := List.replicate 10 uq

/-- A 10-sample dataset of targets. -/
def yq10 : List (Fin 2 → ℚ) := List.replicate 10 rq1

/-- A concrete parameter list: a `2 x 2` tensor and a length-2 vector. -/
def psq : List (Phnn.Tensor ℚ) := [⟨[2, 2], [1, 2, 3, 4]⟩, ⟨[2], [5, 6]⟩]

-- The embedding above is complete; the remainder of the file proves its properties.

namespace NumpySimple

variable {K : Type} [LinearOrderedField K]

theorem hstack_castAdd {m n : ℕ} (f : Fin m → K) (g : Fin n → K) (i : Fin m) :
    hstack f g (Fin.castAdd n i) = f i := by
  have h : ((Fin.castAdd n i : Fin (m + n)) : ℕ) < m := by simpa using i.isLt
  simp [hstack, h]

theorem hstack_natAdd {m n : ℕ} (f : Fin m → K) (g : Fin n → K) (i : Fin n) :
    hstack f g (Fin.natAdd m i) = g i := by
  have h : ¬ ((Fin.natAdd m i : Fin (m + n)) : ℕ) < m := by simp
  rw [hstack, dif_neg h]
  congr 1
  exact Fin.ext (by simp)

theorem gradient_natAdd (x : Fin 12 → K) (u yh : Fin 2 → K) (a b c : K)
    (k : Fin 6) :
    gradient x u yh a b c (Fin.natAdd 6 k) = 2 * b * x (Fin.natAdd 6 k) := by
  simp only [gradient]
  rw [hstack_natAdd, hstack_natAdd]
  simp [dwHalf]

theorem F_dense_tl {n : ℕ} (beta : K) (i j : Fin n) :
    F_dense n beta (Fin.castAdd n i) (Fin.castAdd n j) = 0 := by
  simp only [F_dense, Fin.coe_castAdd]
  rw [if_pos i.isLt, if_pos j.isLt]

theorem F_dense_tr {n : ℕ} (beta : K) (i j : Fin n) :
    F_dense n beta (Fin.castAdd n i) (Fin.natAdd n j) = if i = j then 1 else 0 := by
  have hi := i.isLt
  have hj := j.isLt
  simp only [F_dense, Fin.coe_castAdd, Fin.coe_natAdd]
  rw [if_pos hi, if_neg (by omega)]
  by_cases h : i = j
  · subst h
    rw [if_pos (by omega), if_pos rfl]
  · have hv : (i : ℕ) ≠ (j : ℕ) := fun hh => h (Fin.ext hh)
    rw [if_neg (by omega), if_neg h]

theorem F_dense_bl {n : ℕ} (beta : K) (i j : Fin n) :
    F_dense n beta (Fin.natAdd n i) (Fin.castAdd n j) = if i = j then -1 else 0 := by
  have hi := i.isLt
  have hj := j.isLt
  simp only [F_dense, Fin.coe_castAdd, Fin.coe_natAdd]
  rw [if_neg (by omega), if_pos hj]
  by_cases h : i = j
  · subst h
    rw [if_pos (by omega), if_pos rfl]
  · have hv : (i : ℕ) ≠ (j : ℕ) := fun hh => h (Fin.ext hh)
    rw [if_neg (by omega), if_neg h]

theorem F_dense_br {n : ℕ} (beta : K) (i j : Fin n) :
    F_dense n beta (Fin.natAdd n i) (Fin.natAdd n j) = if i = j then -beta else 0 := by
  have hi := i.isLt
  have hj := j.isLt
  simp only [F_dense, Fin.coe_natAdd]
  rw [if_neg (by omega), if_neg (by omega)]
  by_cases h : i = j
  · subst h
    rw [if_pos (by omega), if_pos rfl]
  · have hv : (i : ℕ) ≠ (j : ℕ) := fun hh => h (Fin.ext hh)
    rw [if_neg (by omega), if_neg h]

theorem F_mulVec_castAdd {n : ℕ} (beta : K) (g : Fin (n + n) → K) (i : Fin n) :
    ∑ j, F_dense n beta (Fin.castAdd n i) j * g j = g (Fin.natAdd n i) := by
  rw [Fin.sum_univ_add]
  simp only [F_dense_tl, F_dense_tr, zero_mul, Finset.sum_const_zero, zero_add,
    ite_mul, one_mul, Finset.sum_ite_eq, Finset.mem_univ, if_true]

theorem F_mulVec_natAdd {n : ℕ} (beta : K) (g : Fin (n + n) → K) (i : Fin n) :
    ∑ j, F_dense n beta (Fin.natAdd n i) j * g j
      = -g (Fin.castAdd n i) - beta * g (Fin.natAdd n i) := by
  rw [Fin.sum_univ_add]
  simp only [F_dense_bl, F_dense_br, ite_mul, neg_one_mul, zero_mul,
    Finset.sum_ite_eq, Finset.mem_univ, if_true]
  ring

end NumpySimple

namespace Phnn

variable {K : Type} [LinearOrderedField K]

theorem sparseToDense_append (l₁ l₂ : List ((ℕ × ℕ) × K)) (r c : ℕ) :
    sparseToDense (l₁ ++ l₂) r c = sparseToDense l₁ r c + sparseToDense l₂ r c := by
  induction l₁ with
  | nil => simp [sparseToDense]
  | cons e rest ih => simp [sparseToDense, ih, add_assoc]

theorem sparseToDense_map_range (f : ℕ → ℕ × ℕ) (v : ℕ → K) (r c : ℕ) (n : ℕ) :
    sparseToDense ((List.range n).map fun k => (f k, v k)) r c
      = ∑ k ∈ Finset.range n, if f k = (r, c) then v k else 0 := by
  induction n with
  | zero => simp [sparseToDense]
  | succ m ih =>
    rw [List.range_succ, List.map_append, sparseToDense_append, ih,
      Finset.sum_range_succ]
    simp [sparseToDense]

theorem makeFMatrix_value (n : ℕ) (beta : K) (r c : ℕ) :
    sparseToDense (makeFMatrix n beta) r c
      = (∑ k ∈ Finset.range n, if (k, n + k) = (r, c) then (1 : K) else 0)
        + ((∑ k ∈ Finset.range n, if (n + k, k) = (r, c) then (-1 : K) else 0)
          + (∑ k ∈ Finset.range n, if (n + k, n + k) = (r, c) then -beta else 0)) := by
  rw [makeFMatrix, sparseToDense_append, sparseToDense_append,
    sparseToDense_map_range (fun k => (k, n + k)) (fun _ => (1 : K)),
    sparseToDense_map_range (fun k => (n + k, k)) (fun _ => (-1 : K)),
    sparseToDense_map_range (fun k => (n + k, n + k)) (fun _ => -beta), add_assoc]


theorem forward_dxdt_castAdd (n : ℕ) (beta : K) (g : Fin (n + n) → K) (i : Fin n) :
    forward_dxdt n beta g (Fin.castAdd n i) = g (Fin.natAdd n i) := by
  have h : ((Fin.castAdd n i : Fin (n + n)) : ℕ) < n := by simpa using i.isLt
  simp only [forward_dxdt]
  rw [dif_pos h]
  congr 1

theorem forward_dxdt_natAdd (n : ℕ) (beta : K) (g : Fin (n + n) → K) (i : Fin n) :
    forward_dxdt n beta g (Fin.natAdd n i)
      = -g (Fin.castAdd n i) - beta * g (Fin.natAdd n i) := by
  have h : ¬ ((Fin.natAdd n i : Fin (n + n)) : ℕ) < n := by simp
  simp only [forward_dxdt]
  rw [dif_neg h]
  have e : (⟨((Fin.natAdd n i : Fin (n + n)) : ℕ) - n,
      Nat.lt_of_le_of_lt (Nat.sub_le _ n) (Fin.isLt _)⟩ : Fin (n + n))
      = Fin.castAdd n i := by
    refine Fin.ext ?_
    simp only [Fin.coe_natAdd, Fin.coe_castAdd]
    omega
  rw [e]

end Phnn

section Claims

open NumpySimple

/-- Claim C2: for every state `x` of the supported even length 12 with
`b ≠ 0`, `hamiltonian_model(x, t, u, yh, beta, a, b, c)` returns the
concatenation `dxdt` whose weight half is `dJ/d(dw) / b` and whose velocity
half is `-dJ/dw - beta * dJ/d(dw) / b`, with `dJ` the value of
`gradient(x, u, yh, a, b, c)`. -/
theorem claim_C2 {K : Type} [LinearOrderedField K] (x : Fin 12 → K) (t : K)
    (u yh : Fin 2 → K) (beta a b c : K) (hb : b ≠ 0) (i : Fin 6) :
    hamiltonian_model x t u yh beta a b c (Fin.castAdd 6 i)
        = gradient x u yh a b c (Fin.natAdd 6 i) / b
      ∧ hamiltonian_model x t u yh beta a b c (Fin.natAdd 6 i)
        = -gradient x u yh a b c (Fin.castAdd 6 i)
          - beta * gradient x u yh a b c (Fin.natAdd 6 i) / b := by
  constructor
  · simp only [hamiltonian_model]
    rw [hstack_castAdd]
  · simp only [hamiltonian_model]
    rw [hstack_natAdd]

/-- Witness for C2: the hypothesis `b ≠ 0` holds at `b = 5` and the halves of
the vector field evaluate as stated on a concrete rational state. -/
theorem claim_C2_witness :
    hamiltonian_model xq 0 uq yhq 2 3 5 7 (Fin.castAdd 6 (0 : Fin 6))
        = gradient xq uq yhq 3 5 7 (Fin.natAdd 6 (0 : Fin 6)) / 5
      ∧ hamiltonian_model xq 0 uq yhq 2 3 5 7 (Fin.natAdd 6 (0 : Fin 6))
        = -gradient xq uq yhq 3 5 7 (Fin.castAdd 6 (0 : Fin 6))
          - 2 * gradient xq uq yhq 3 5 7 (Fin.natAdd 6 (0 : Fin 6)) / 5 :=
  claim_C2 xq 0 uq yhq 2 3 5 7 (by with_unfolding_all decide) 0

/-- Claim C3: the batch and high-level vector fields compute
`dxdt = F @ (mean gradient)` with no division by `b`: the top half equals the
velocity half of the gradient and the bottom half equals minus the weight half
minus `beta` times the velocity half.  `ham_mod_batch` applies the dense `F`
to the batch-mean gradient; `PHNN.forward` assembles the same structure
directly on the halves of any flat gradient. -/
theorem claim_C3 {K : Type} [LinearOrderedField K] (x : Fin 12 → K) (t : K)
    (bs : ℕ) (U Yh : List (Fin 2 → K)) (beta a b c : K) (i : Fin 6) :
    (ham_mod_batch x t bs U Yh beta a b c (Fin.castAdd 6 i)
        = gradient_batch bs x U Yh a b c (Fin.natAdd 6 i)
      ∧ ham_mod_batch x t bs U Yh beta a b c (Fin.natAdd 6 i)
        = -gradient_batch bs x U Yh a b c (Fin.castAdd 6 i)
          - beta * gradient_batch bs x U Yh a b c (Fin.natAdd 6 i))
    ∧ ∀ (n : ℕ) (g : Fin (n + n) → K) (j : Fin n),
        Phnn.forward_dxdt n beta g (Fin.castAdd n j) = g (Fin.natAdd n j)
        ∧ Phnn.forward_dxdt n beta g (Fin.natAdd n j)
          = -g (Fin.castAdd n j) - beta * g (Fin.natAdd n j) := by
  refine ⟨⟨?_, ?_⟩, fun n g j =>
    ⟨Phnn.forward_dxdt_castAdd n beta g j, Phnn.forward_dxdt_natAdd n beta g j⟩⟩
  · simp only [ham_mod_batch]
    exact F_mulVec_castAdd beta _ i
  · simp only [ham_mod_batch]
    exact F_mulVec_natAdd beta _ i

/-- Claim C9: from a zero-velocity state whose total weight-half gradient
vanishes, the vector field returns the zero derivative in both halves, in the
single-sample form and in the batch form. -/
theorem claim_C9 {K : Type} [LinearOrderedField K] (x : Fin 12 → K) (t : K)
    (u yh : Fin 2 → K) (U Yh : List (Fin 2 → K)) (bs : ℕ) (beta a b c : K)
    (hb : 0 < b) (hdw : ∀ k : Fin 6, x (Fin.natAdd 6 k) = 0) :
    ((∀ k : Fin 6, gradient x u yh a b c (Fin.castAdd 6 k) = 0) →
      ∀ i : Fin 12, hamiltonian_model x t u yh beta a b c i = 0)
    ∧ ((∀ k : Fin 6, gradient_batch bs x U Yh a b c (Fin.castAdd 6 k) = 0) →
      ∀ i : Fin 12, ham_mod_batch x t bs U Yh beta a b c i = 0) := by
  have hgn : ∀ k : Fin 6, gradient x u yh a b c (Fin.natAdd 6 k) = 0 := fun k => by
    rw [gradient_natAdd, hdw k, mul_zero]
  have hgbn : ∀ k : Fin 6, gradient_batch bs x U Yh a b c (Fin.natAdd 6 k) = 0 := fun k => by
    simp only [gradient_batch]
    rw [Finset.sum_eq_zero fun m hm => by rw [gradient_natAdd, hdw k, mul_zero], zero_div]
  constructor
  · intro hg i
    refine Fin.addCases (m := 6) (n := 6) (fun k => ?_) (fun k => ?_) i
    · simp only [hamiltonian_model]
      rw [hstack_castAdd, hgn k, zero_div]
    · simp only [hamiltonian_model]
      rw [hstack_natAdd, hgn k, hg k]
      simp
  · intro hg i
    refine Fin.addCases (m := 6) (n := 6) (fun k => ?_) (fun k => ?_) i
    · simp only [ham_mod_batch]
      rw [F_mulVec_castAdd]
      exact hgbn k
    · simp only [ham_mod_batch]
      rw [F_mulVec_natAdd, hgbn k, hg k]
      simp

/-- Witness for C9: at the zero state with `a = c = 0 < b = 1` both
hypotheses hold and both vector fields return zero. -/
theorem claim_C9_witness :
    hamiltonian_model zq 0 uq yhq 2 0 1 0 (Fin.castAdd 6 (3 : Fin 6)) = 0
    ∧ ham_mod_batch zq 0 1 [uq] [yhq] 2 0 1 0 (Fin.natAdd 6 (3 : Fin 6)) = 0 :=
  ⟨(claim_C9 zq 0 uq yhq [uq] [yhq] 1 2 0 1 0 (by with_unfolding_all decide)
        (by with_unfolding_all decide)).1
      (by with_unfolding_all decide) (Fin.castAdd 6 (3 : Fin 6)),
   (claim_C9 zq 0 uq yhq [uq] [yhq] 1 2 0 1 0 (by with_unfolding_all decide)
        (by with_unfolding_all decide)).2
      (by with_unfolding_all decide) (Fin.natAdd 6 (3 : Fin 6))⟩

theorem sum_indicator_hit {K : Type} [LinearOrderedField K] {n : ℕ}
    (f g : ℕ → ℕ) (v : K) (r c : ℕ) (k0 : ℕ) (hk0 : k0 < n)
    (hiff : ∀ k, k < n → (((f k, g k) : ℕ × ℕ) = (r, c) ↔ k = k0)) :
    (∑ k ∈ Finset.range n, if ((f k, g k) : ℕ × ℕ) = (r, c) then v else 0) = v := by
  have e : (∑ k ∈ Finset.range n, if ((f k, g k) : ℕ × ℕ) = (r, c) then v else 0)
      = ∑ k ∈ Finset.range n, if k = k0 then v else 0 :=
    Finset.sum_congr rfl fun k hk =>
      if_congr (hiff k (Finset.mem_range.mp hk)) rfl rfl
  rw [e, Finset.sum_ite_eq' (Finset.range n) k0 (fun _ => v),
    if_pos (Finset.mem_range.mpr hk0)]

theorem sum_indicator_zero {K : Type} [LinearOrderedField K] {n : ℕ}
    (f g : ℕ → ℕ) (v : K) (r c : ℕ)
    (h : ∀ k, k < n → ¬ (((f k, g k) : ℕ × ℕ) = (r, c))) :
    (∑ k ∈ Finset.range n, if ((f k, g k) : ℕ × ℕ) = (r, c) then v else 0) = 0 :=
  Finset.sum_eq_zero fun k hk => if_neg (h k (Finset.mem_range.mp hk))

theorem sparse_tl {K : Type} [LinearOrderedField K] {n : ℕ} (beta : K) (i j : Fin n) :
    Phnn.sparseToDense (Phnn.makeFMatrix n beta) (i : ℕ) (j : ℕ) = 0 := by
  have hi := i.isLt
  have hj := j.isLt
  rw [Phnn.makeFMatrix_value,
    sum_indicator_zero (fun k => k) (fun k => n + k) (1 : K) _ _
      (fun k hk => by simp only [Prod.mk.injEq]; omega),
    sum_indicator_zero (fun k => n + k) (fun k => k) (-1 : K) _ _
      (fun k hk => by simp only [Prod.mk.injEq]; omega),
    sum_indicator_zero (fun k => n + k) (fun k => n + k) (-beta) _ _
      (fun k hk => by simp only [Prod.mk.injEq]; omega)]
  simp

theorem sparse_tr {K : Type} [LinearOrderedField K] {n : ℕ} (beta : K) (i j : Fin n) :
    Phnn.sparseToDense (Phnn.makeFMatrix n beta) (i : ℕ) (n + (j : ℕ))
      = if i = j then 1 else 0 := by
  have hi := i.isLt
  have hj := j.isLt
  rw [Phnn.makeFMatrix_value,
    sum_indicator_zero (fun k => n + k) (fun k => k) (-1 : K) _ _
      (fun k hk => by simp only [Prod.mk.injEq]; omega),
    sum_indicator_zero (fun k => n + k) (fun k => n + k) (-beta) _ _
      (fun k hk => by simp only [Prod.mk.injEq]; omega)]
  by_cases h : i = j
  · subst h
    rw [sum_indicator_hit (fun k => k) (fun k => n + k) (1 : K) _ _ ((i : ℕ)) hi
      (fun k hk => by simp only [Prod.mk.injEq]; omega), if_pos rfl]
    simp
  · have hv : (i : ℕ) ≠ (j : ℕ) := fun hh => h (Fin.ext hh)
    rw [sum_indicator_zero (fun k => k) (fun k => n + k) (1 : K) _ _
      (fun k hk => by simp only [Prod.mk.injEq]; omega), if_neg h]
    simp

theorem sparse_bl {K : Type} [LinearOrderedField K] {n : ℕ} (beta : K) (i j : Fin n) :
    Phnn.sparseToDense (Phnn.makeFMatrix n beta) (n + (i : ℕ)) ((j : ℕ))
      = if i = j then -1 else 0 := by
  have hi := i.isLt
  have hj := j.isLt
  rw [Phnn.makeFMatrix_value,
    sum_indicator_zero (fun k => k) (fun k => n + k) (1 : K) _ _
      (fun k hk => by simp only [Prod.mk.injEq]; omega),
    sum_indicator_zero (fun k => n + k) (fun k => n + k) (-beta) _ _
      (fun k hk => by simp only [Prod.mk.injEq]; omega)]
  by_cases h : i = j
  · subst h
    rw [sum_indicator_hit (fun k => n + k) (fun k => k) (-1 : K) _ _ ((i : ℕ)) hi
      (fun k hk => by simp only [Prod.mk.injEq]; omega), if_pos rfl]
    simp
  · have hv : (i : ℕ) ≠ (j : ℕ) := fun hh => h (Fin.ext hh)
    rw [sum_indicator_zero (fun k => n + k) (fun k => k) (-1 : K) _ _
      (fun k hk => by simp only [Prod.mk.injEq]; omega), if_neg h]
    simp

theorem sparse_br {K : Type} [LinearOrderedField K] {n : ℕ} (beta : K) (i j : Fin n) :
    Phnn.sparseToDense (Phnn.makeFMatrix n beta) (n + (i : ℕ)) (n + (j : ℕ))
      = if i = j then -beta else 0 := by
  have hi := i.isLt
  have hj := j.isLt
  rw [Phnn.makeFMatrix_value,
    sum_indicator_zero (fun k => k) (fun k => n + k) (1 : K) _ _
      (fun k hk => by simp only [Prod.mk.injEq]; omega),
    sum_indicator_zero (fun k => n + k) (fun k => k) (-1 : K) _ _
      (fun k hk => by simp only [Prod.mk.injEq]; omega)]
  by_cases h : i = j
  · subst h
    rw [sum_indicator_hit (fun k => n + k) (fun k => n + k) (-beta) _ _ ((i : ℕ)) hi
      (fun k hk => by simp only [Prod.mk.injEq]; omega), if_pos rfl]
    simp
  · have hv : (i : ℕ) ≠ (j : ℕ) := fun hh => h (Fin.ext hh)
    rw [sum_indicator_zero (fun k => n + k) (fun k => n + k) (-beta) _ _
      (fun k hk => by simp only [Prod.mk.injEq]; omega), if_neg h]
    simp

theorem makeFMatrix_len {K : Type} [LinearOrderedField K] (n : ℕ) (beta : K) :
    (Phnn.makeFMatrix n beta).length = 3 * n := by
  simp [Phnn.makeFMatrix]
  omega

/-- Claim C4: for every `n ≥ 1` and every `beta`, the assembled `2n x 2n`
structure matrix satisfies `F[0:n,0:n] = 0`, `F[0:n,n:2n] = I`,
`F[n:2n,0:n] = -I` and `F[n:2n,n:2n] = -beta*I`; this holds for the dense `F`
built inside `ham_mod_batch` and for the sparse `F` built by
`PHNN.makeFMatrix`, which stores exactly `3n` entries.  Both constructions take
only `n` and `beta` as inputs — never the weights. -/
theorem claim_C4 {K : Type} [LinearOrderedField K] (n : ℕ) (hn : 1 ≤ n)
    (beta : K) (i j : Fin n) :
    (F_dense n beta (Fin.castAdd n i) (Fin.castAdd n j) = 0
      ∧ F_dense n beta (Fin.castAdd n i) (Fin.natAdd n j) = (if i = j then 1 else 0)
      ∧ F_dense n beta (Fin.natAdd n i) (Fin.castAdd n j) = (if i = j then -1 else 0)
      ∧ F_dense n beta (Fin.natAdd n i) (Fin.natAdd n j) = (if i = j then -beta else 0))
    ∧ (Phnn.sparseToDense (Phnn.makeFMatrix n beta) (i : ℕ) (j : ℕ) = 0
      ∧ Phnn.sparseToDense (Phnn.makeFMatrix n beta) (i : ℕ) (n + (j : ℕ))
          = (if i = j then 1 else 0)
      ∧ Phnn.sparseToDense (Phnn.makeFMatrix n beta) (n + (i : ℕ)) ((j : ℕ))
          = (if i = j then -1 else 0)
      ∧ Phnn.sparseToDense (Phnn.makeFMatrix n beta) (n + (i : ℕ)) (n + (j : ℕ))
          = (if i = j then -beta else 0))
    ∧ (Phnn.makeFMatrix n beta).length = 3 * n :=
  ⟨⟨F_dense_tl beta i j, F_dense_tr beta i j, F_dense_bl beta i j,
      F_dense_br beta i j⟩,
   ⟨sparse_tl beta i j, sparse_tr beta i j, sparse_bl beta i j,
      sparse_br beta i j⟩,
   makeFMatrix_len n beta⟩

/-- Witness for C4: the block structure at `n = 2`, `beta = 3`, entry
`(i, j) = (0, 1)` over `ℚ`. -/
theorem claim_C4_witness :
    (F_dense 2 (3 : ℚ) (Fin.castAdd 2 (0 : Fin 2)) (Fin.castAdd 2 (1 : Fin 2)) = 0
      ∧ F_dense 2 (3 : ℚ) (Fin.castAdd 2 (0 : Fin 2)) (Fin.natAdd 2 (1 : Fin 2))
          = (if (0 : Fin 2) = 1 then 1 else 0)
      ∧ F_dense 2 (3 : ℚ) (Fin.natAdd 2 (0 : Fin 2)) (Fin.castAdd 2 (1 : Fin 2))
          = (if (0 : Fin 2) = 1 then -1 else 0)
      ∧ F_dense 2 (3 : ℚ) (Fin.natAdd 2 (0 : Fin 2)) (Fin.natAdd 2 (1 : Fin 2))
          = (if (0 : Fin 2) = 1 then -3 else 0))
    ∧ (Phnn.sparseToDense (Phnn.makeFMatrix 2 (3 : ℚ)) ((0 : Fin 2) : ℕ) ((1 : Fin 2) : ℕ) = 0
      ∧ Phnn.sparseToDense (Phnn.makeFMatrix 2 (3 : ℚ)) ((0 : Fin 2) : ℕ) (2 + ((1 : Fin 2) : ℕ))
          = (if (0 : Fin 2) = 1 then 1 else 0)
      ∧ Phnn.sparseToDense (Phnn.makeFMatrix 2 (3 : ℚ)) (2 + ((0 : Fin 2) : ℕ)) (((1 : Fin 2) : ℕ))
          = (if (0 : Fin 2) = 1 then -1 else 0)
      ∧ Phnn.sparseToDense (Phnn.makeFMatrix 2 (3 : ℚ)) (2 + ((0 : Fin 2) : ℕ)) (2 + ((1 : Fin 2) : ℕ))
          = (if (0 : Fin 2) = 1 then -3 else 0))
    ∧ (Phnn.makeFMatrix 2 (3 : ℚ)).length = 3 * 2 :=
  claim_C4 2 (by decide) (3 : ℚ) 0 1

/-- Claim C5: for every batch size `k ≥ 1` and batches of length at least `k`,
`loss_batch` equals the arithmetic mean of the per-sample `loss` values over
the first `k` samples, and `gradient_batch` equals the arithmetic mean of the
per-sample gradients, componentwise. -/
theorem claim_C5 {K : Type} [LinearOrderedField K] (k : ℕ) (x : Fin 12 → K)
    (U Yh : List (Fin 2 → K)) (a b c : K) (hk : 1 ≤ k) (hU : k ≤ U.length)
    (hY : k ≤ Yh.length) :
    loss_batch k x U Yh a b c
      = (∑ i : Fin k, loss x (U.get ⟨(i : ℕ), lt_of_lt_of_le i.isLt hU⟩)
          (Yh.get ⟨(i : ℕ), lt_of_lt_of_le i.isLt hY⟩) a b c) / (k : K)
    ∧ ∀ j : Fin 12, gradient_batch k x U Yh a b c j
      = (∑ i : Fin k, gradient x (U.get ⟨(i : ℕ), lt_of_lt_of_le i.isLt hU⟩)
          (Yh.get ⟨(i : ℕ), lt_of_lt_of_le i.isLt hY⟩) a b c j) / (k : K) := by
  constructor
  · rw [loss_batch,
      Finset.sum_range fun i => loss x (U.getD i zero2) (Yh.getD i zero2) a b c]
    congr 1
    refine Finset.sum_congr rfl fun i _ => ?_
    rw [List.getD_eq_get U zero2 (lt_of_lt_of_le i.isLt hU),
      List.getD_eq_get Yh zero2 (lt_of_lt_of_le i.isLt hY)]
  · intro j
    simp only [gradient_batch]
    rw [Finset.sum_range fun i => gradient x (U.getD i zero2) (Yh.getD i zero2) a b c j]
    congr 1
    refine Finset.sum_congr rfl fun i _ => ?_
    rw [List.getD_eq_get U zero2 (lt_of_lt_of_le i.isLt hU),
      List.getD_eq_get Yh zero2 (lt_of_lt_of_le i.isLt hY)]

/-- Witness for C5: the batch of size `k = 2` drawn from two-element sample
lists satisfies the hypotheses, and both averaging identities evaluate. -/
theorem claim_C5_witness :
    loss_batch 2 xq [uq, uq] [yhq, rq1] 1 1 1
      = (∑ i : Fin 2, loss xq ([uq, uq].get ⟨(i : ℕ), by simpa using i.isLt⟩)
          ([yhq, rq1].get ⟨(i : ℕ), by simpa using i.isLt⟩) 1 1 1) / (2 : ℚ)
    ∧ gradient_batch 2 xq [uq, uq] [yhq, rq1] 1 1 1 (Fin.castAdd 6 (2 : Fin 6))
      = (∑ i : Fin 2, gradient xq ([uq, uq].get ⟨(i : ℕ), by simpa using i.isLt⟩)
          ([yhq, rq1].get ⟨(i : ℕ), by simpa using i.isLt⟩) 1 1 1 (Fin.castAdd 6 (2 : Fin 6))) / (2 : ℚ) :=
  ⟨(claim_C5 2 xq [uq, uq] [yhq, rq1] 1 1 1 (by decide) (by decide) (by decide)).1,
   (claim_C5 2 xq [uq, uq] [yhq, rq1] 1 1 1 (by decide) (by decide) (by decide)).2
      (Fin.castAdd 6 (2 : Fin 6))⟩

theorem makeStateDict_flattenParamVector {K : Type} [LinearOrderedField K] :
    ∀ ps : List (Phnn.Tensor K), (∀ p ∈ ps, p.data.length = p.shape.prod) →
      Phnn.makeStateDict ps (Phnn.flattenParamVector ps) = ps := by
  intro ps
  induction ps with
  | nil => intro _; rfl
  | cons p rest ih =>
    intro h
    have hp : p.data.length = p.shape.prod := h p (List.mem_cons_self p rest)
    have hflat : Phnn.flattenParamVector (p :: rest)
        = p.data ++ Phnn.flattenParamVector rest := by
      simp [Phnn.flattenParamVector]
    rw [hflat]
    simp only [Phnn.makeStateDict]
    rw [← hp, List.take_left, List.drop_left,
      ih (fun q hq => h q (List.mem_cons_of_mem p hq))]

/-- Claim C6: for every nonempty predictor parameter set (each tensor carrying
as many scalars as its shape prescribes), flattening with
`PHNN.flattenParamVector` and unflattening with `PHNN.makeStateDict` is the
exact identity: every tensor is reconstructed with its original shape and
values, in order. -/
theorem claim_C6 {K : Type} [LinearOrderedField K] (ps : List (Phnn.Tensor K))
    (hne : ps ≠ []) (hsz : ∀ p ∈ ps, p.data.length = p.shape.prod) :
    Phnn.makeStateDict ps (Phnn.flattenParamVector ps) = ps :=
  makeStateDict_flattenParamVector ps hsz

/-- Witness for C6: the round trip on a concrete two-tensor parameter list. -/
theorem claim_C6_witness :
    Phnn.makeStateDict psq (Phnn.flattenParamVector psq) = psq :=
  claim_C6 psq (by simp [psq]) (by decide)

/-- Composing every predictor output with a strictly increasing function (such
as `torch.exp`) does not change the index `torch.max` returns. -/
theorem torchMaxIdx_comp {K : Type} [LinearOrderedField K] {m : ℕ} (e : K → K)
    (he : StrictMono e) (v : Fin (m + 1) → K) :
    Phnn.torchMaxIdx (fun j => e (v j)) = Phnn.torchMaxIdx v := by
  simp only [Phnn.torchMaxIdx]
  congr 1
  funext best j
  by_cases h : v j > v best
  · rw [if_pos (he h), if_pos h]
  · rw [if_neg (fun hh => h (he.lt_iff_lt.mp hh)), if_neg h]

/-- Counterexample to C7: weights predicting class 1 on both samples whose
references are also class 1 — by the claim's matching criterion both predicted
labels match, yet `test` returns `0`, not `100.0`; and a 2-sample loader where
both arg-max predictions match their labels, on which `pred_accuracy` returns
the fraction `1`, not the percentage `100.0`. -/
theorem claim_C7_counterexample :
    (simple_net uq wq0 1 > simple_net uq wq0 0 ∧ rq1 1 > rq1 0
      ∧ test wq0 [uq, uq] [rq1, rq1] = 0)
    ∧ (Phnn.torchMaxIdx pq0 = 0 ∧ Phnn.torchMaxIdx pq1 = 1
      ∧ Phnn.pred_accuracy (fun s => s) [[(pq0, 0), (pq1, 1)]] = 1
      ∧ Phnn.pred_accuracy (fun s => s) [[(pq0, 0), (pq1, 1)]] ≠ 100) := by
  with_unfolding_all decide

/-- Claim C7 (amended): on a 2-sample set the low-level evaluator `test`
returns `100.0` when both samples put the strictly larger value on the first
class in both the prediction and the reference, and `0.0` when no sample does
(agreements on class 1 are not counted); the high-level evaluator
`pred_accuracy` counts a sample as correct when the arg-max predicted index
equals the reference label and returns the plain fraction correct — `1` when
both match and `0` when neither — not a percentage. -/
theorem claim_C7 {K : Type} [LinearOrderedField K] {m : ℕ} (x : Fin 6 → K)
    (u1 u2 r1 r2 : Fin 2 → K) (e : K → K) (he : StrictMono e)
    (p1 p2 : Fin (m + 1) → K) (l1 l2 : Fin (m + 1)) :
    ((simple_net u1 x 0 > simple_net u1 x 1 ∧ r1 0 > r1 1) →
      (simple_net u2 x 0 > simple_net u2 x 1 ∧ r2 0 > r2 1) →
      test x [u1, u2] [r1, r2] = 100)
    ∧ (¬ (simple_net u1 x 0 > simple_net u1 x 1 ∧ r1 0 > r1 1) →
      ¬ (simple_net u2 x 0 > simple_net u2 x 1 ∧ r2 0 > r2 1) →
      test x [u1, u2] [r1, r2] = 0)
    ∧ (Phnn.torchMaxIdx p1 = l1 → Phnn.torchMaxIdx p2 = l2 →
      Phnn.pred_accuracy e [[(p1, l1), (p2, l2)]] = 1)
    ∧ (Phnn.torchMaxIdx p1 ≠ l1 → Phnn.torchMaxIdx p2 ≠ l2 →
      Phnn.pred_accuracy e [[(p1, l1), (p2, l2)]] = 0) := by
  refine ⟨fun h1 h2 => ?_, fun h1 h2 => ?_, fun h1 h2 => ?_, fun h1 h2 => ?_⟩
  · norm_num [test, List.range_succ, ← Bool.decide_and, h1.1, h1.2, h2.1, h2.2]
  · norm_num [test, List.range_succ, ← Bool.decide_and, h1, h2]
  · norm_num [Phnn.pred_accuracy, torchMaxIdx_comp e he, h1, h2]
  · norm_num [Phnn.pred_accuracy, torchMaxIdx_comp e he, h1, h2]

/-- Witness for C7 (amended): a class-0 predictor and class-0 references give
`test = 100`; a loader where both arg-max predictions match gives
`pred_accuracy = 1`. -/
theorem claim_C7_witness :
    test wq1 [uq, uq] [rq0c, rq0c] = 100
    ∧ Phnn.pred_accuracy (fun s : ℚ => s) [[(pq0, 0), (pq1, 1)]] = 1 :=
  ⟨(claim_C7 wq1 uq uq rq0c rq0c (fun s : ℚ => s) strictMono_id pq0 pq1 0 1).1
      (by with_unfolding_all decide) (by with_unfolding_all decide),
   (claim_C7 wq1 uq uq rq0c rq0c (fun s : ℚ => s) strictMono_id pq0 pq1 0 1).2.2.1
      (by with_unfolding_all decide) (by with_unfolding_all decide)⟩

/-- Claim C8: a batch size (at least 1) that does not evenly divide the
dataset size is rejected with the shape-mismatch error at the batching
boundary of `train` — for any integrator whatsoever, so before any ODE
integration step runs and with no partial state: no truncated prefix of the
dataset is processed. -/
theorem claim_C8 {K : Type} [LinearOrderedField K]
    (integ : (Fin 12 → K) → List (Fin 2 → K) → List (Fin 2 → K) → List (Fin 12 → K))
    (X y : List (Fin 2 → K)) (bs epochs : ℕ) (x0 : Fin 12 → K) (a b c beta : K)
    (t : List K) (hbs : 1 ≤ bs) (hdvd : ¬ bs ∣ X.length) :
    train integ X y bs epochs x0 a b c beta t = Except.error "ShapeMismatch" := by
  have hne : ¬ X.length = X.length / bs * bs := by
    intro h
    exact hdvd ⟨X.length / bs, by rw [Nat.mul_comm]; exact h⟩
  simp only [train, np_reshape3, if_neg hne]

/-- Witness for C8: batch size 4 on a 10-sample dataset is rejected. -/
theorem claim_C8_witness :
    train integ0 Xq10 yq10 4 1 zq 1 1 1 1 [0] = Except.error "ShapeMismatch" :=
  claim_C8 integ0 Xq10 yq10 4 1 zq 1 1 1 1 [0] (by decide) (by decide)

theorem batchStep_spec {K : Type} [LinearOrderedField K]
    (integ : (Fin 12 → K) → List (Fin 2 → K) → List (Fin 2 → K) → List (Fin 12 → K))
    (bs : ℕ) (a b c : K) (t : List K)
    (hI : ∀ z U Yh, (integ z U Yh).length = t.length)
    (rec : TrainRec K) (U Yh : List (Fin 2 → K)) :
    (batchStep integ bs a b c t rec U Yh).xf.length = rec.xf.length + t.length
    ∧ (batchStep integ bs a b c t rec U Yh).tf.length = rec.tf.length + t.length
    ∧ (batchStep integ bs a b c t rec U Yh).J.length = rec.J.length + t.length
    ∧ (batchStep integ bs a b c t rec U Yh).xep = rec.xep
    ∧ (batchStep integ bs a b c t rec U Yh).Jep = rec.Jep := by
  simp [batchStep, hI]

theorem innerLoop_spec {K : Type} [LinearOrderedField K]
    (integ : (Fin 12 → K) → List (Fin 2 → K) → List (Fin 2 → K) → List (Fin 12 → K))
    (bs : ℕ) (a b c : K) (t : List K) (Ub Yhb : List (List (Fin 2 → K)))
    (hI : ∀ z U Yh, (integ z U Yh).length = t.length) :
    ∀ (N : ℕ) (rec : TrainRec K),
      (((List.range N).foldl
        (fun r i => batchStep integ bs a b c t r (Ub.getD i []) (Yhb.getD i [])) rec).xf.length
        = rec.xf.length + N * t.length)
      ∧ (((List.range N).foldl
        (fun r i => batchStep integ bs a b c t r (Ub.getD i []) (Yhb.getD i [])) rec).tf.length
        = rec.tf.length + N * t.length)
      ∧ (((List.range N).foldl
        (fun r i => batchStep integ bs a b c t r (Ub.getD i []) (Yhb.getD i [])) rec).J.length
        = rec.J.length + N * t.length)
      ∧ (((List.range N).foldl
        (fun r i => batchStep integ bs a b c t r (Ub.getD i []) (Yhb.getD i [])) rec).xep
        = rec.xep)
      ∧ (((List.range N).foldl
        (fun r i => batchStep integ bs a b c t r (Ub.getD i []) (Yhb.getD i [])) rec).Jep
        = rec.Jep) := by
  intro N
  induction N with
  | zero => intro rec; simp
  | succ M ih =>
    intro rec
    rw [List.range_succ, List.foldl_append]
    simp only [List.foldl_cons, List.foldl_nil]
    obtain ⟨h1, h2, h3, h4, h5⟩ := ih rec
    obtain ⟨g1, g2, g3, g4, g5⟩ :=
      batchStep_spec integ bs a b c t hI
        ((List.range M).foldl
          (fun r i => batchStep integ bs a b c t r (Ub.getD i []) (Yhb.getD i [])) rec)
        (Ub.getD M []) (Yhb.getD M [])
    refine ⟨?_, ?_, ?_, ?_, ?_⟩
    · rw [g1, h1, Nat.succ_mul]; omega
    · rw [g2, h2, Nat.succ_mul]; omega
    · rw [g3, h3, Nat.succ_mul]; omega
    · rw [g4, h4]
    · rw [g5, h5]

theorem epochStep_spec {K : Type} [LinearOrderedField K]
    (integ : (Fin 12 → K) → List (Fin 2 → K) → List (Fin 2 → K) → List (Fin 12 → K))
    (bs : ℕ) (a b c : K) (t : List K) (Ub Yhb : List (List (Fin 2 → K)))
    (N_batch : ℕ) (rec : TrainRec K)
    (hI : ∀ z U Yh, (integ z U Yh).length = t.length) :
    ((epochStep integ bs a b c t Ub Yhb N_batch rec).xf.length
      = rec.xf.length + N_batch * t.length)
    ∧ ((epochStep integ bs a b c t Ub Yhb N_batch rec).tf.length
      = rec.tf.length + N_batch * t.length)
    ∧ ((epochStep integ bs a b c t Ub Yhb N_batch rec).J.length
      = rec.J.length + N_batch * t.length)
    ∧ ((epochStep integ bs a b c t Ub Yhb N_batch rec).xep.length
      = rec.xep.length + 1)
    ∧ ((epochStep integ bs a b c t Ub Yhb N_batch rec).Jep.length
      = rec.Jep.length + 1) := by
  obtain ⟨h1, h2, h3, h4, h5⟩ := innerLoop_spec integ bs a b c t Ub Yhb hI N_batch rec
  simp only [epochStep]
  refine ⟨h1, h2, h3, ?_, ?_⟩
  · rw [List.length_append, h4, List.length_cons, List.length_nil]
  · rw [List.length_append, h5, List.length_cons, List.length_nil]

theorem epochLoop_spec {K : Type} [LinearOrderedField K]
    (integ : (Fin 12 → K) → List (Fin 2 → K) → List (Fin 2 → K) → List (Fin 12 → K))
    (bs : ℕ) (a b c : K) (t : List K) (Ub Yhb : List (List (Fin 2 → K)))
    (N_batch : ℕ)
    (hI : ∀ z U Yh, (integ z U Yh).length = t.length) :
    ∀ (E : ℕ) (rec : TrainRec K),
      (((List.range E).foldl
        (fun r _ => epochStep integ bs a b c t Ub Yhb N_batch r) rec).xf.length
        = rec.xf.length + E * (N_batch * t.length))
      ∧ (((List.range E).foldl
        (fun r _ => epochStep integ bs a b c t Ub Yhb N_batch r) rec).tf.length
        = rec.tf.length + E * (N_batch * t.length))
      ∧ (((List.range E).foldl
        (fun r _ => epochStep integ bs a b c t Ub Yhb N_batch r) rec).J.length
        = rec.J.length + E * (N_batch * t.length))
      ∧ (((List.range E).foldl
        (fun r _ => epochStep integ bs a b c t Ub Yhb N_batch r) rec).xep.length
        = rec.xep.length + E)
      ∧ (((List.range E).foldl
        (fun r _ => epochStep integ bs a b c t Ub Yhb N_batch r) rec).Jep.length
        = rec.Jep.length + E) := by
  intro E
  induction E with
  | zero => intro rec; simp
  | succ M ih =>
    intro rec
    rw [List.range_succ, List.foldl_append]
    simp only [List.foldl_cons, List.foldl_nil]
    obtain ⟨h1, h2, h3, h4, h5⟩ := ih rec
    obtain ⟨g1, g2, g3, g4, g5⟩ :=
      epochStep_spec integ bs a b c t Ub Yhb N_batch
        ((List.range M).foldl
          (fun r _ => epochStep integ bs a b c t Ub Yhb N_batch r) rec) hI
    refine ⟨?_, ?_, ?_, ?_, ?_⟩
    · rw [g1, h1, Nat.succ_mul]; omega
    · rw [g2, h2, Nat.succ_mul]; omega
    · rw [g3, h3, Nat.succ_mul]; omega
    · rw [g4, h4]; omega
    · rw [g5, h5]; omega

/-- Claim C10: under the documented preconditions (aligned nonempty dataset,
batch size at least 1 evenly dividing it, at least one epoch, a time grid of
length at least 2, and an integrator returning one state per grid point),
`train` succeeds and returns `tf`, `xf` and `J` of identical length
`epochs * (len(X)/bs) * len(t) - 1` — the epoch-0 placeholder rows and the
final entry being trimmed consistently from all three records — while `xep`
has exactly `epochs` rows. -/
theorem claim_C10 {K : Type} [LinearOrderedField K]
    (integ : (Fin 12 → K) → List (Fin 2 → K) → List (Fin 2 → K) → List (Fin 12 → K))
    (X y : List (Fin 2 → K)) (bs epochs : ℕ) (x0 : Fin 12 → K) (a b c beta : K)
    (t : List K)
    (hI : ∀ z U Yh, (integ z U Yh).length = t.length)
    (hX : 1 ≤ X.length) (hy : y.length = X.length) (hbs : 1 ≤ bs)
    (hdvd : bs ∣ X.length) (hE : 1 ≤ epochs) (ht : 2 ≤ t.length) :
    ∃ tf xf J xep Jep,
      train integ X y bs epochs x0 a b c beta t = Except.ok (tf, xf, J, xep, Jep)
      ∧ tf.length = epochs * (X.length / bs) * t.length - 1
      ∧ xf.length = epochs * (X.length / bs) * t.length - 1
      ∧ J.length = epochs * (X.length / bs) * t.length - 1
      ∧ xep.length = epochs := by
  have hXlen : X.length = X.length / bs * bs := (Nat.div_mul_cancel hdvd).symm
  have hylen : y.length = X.length / bs * bs := by rw [hy]; exact hXlen
  have hNB : 1 ≤ X.length / bs :=
    Nat.div_pos (Nat.le_of_dvd (by omega) hdvd) (by omega)
  obtain ⟨m, hm⟩ : ∃ m, X.length / bs = m + 1 := ⟨X.length / bs - 1, by omega⟩
  have e1 : np_reshape3 X (X.length / bs) bs
      = Except.ok (chunkList bs (X.length / bs) X) := by
    rw [np_reshape3, if_pos hXlen]
  have e2 : np_reshape3 y (X.length / bs) bs
      = Except.ok (chunkList bs (X.length / bs) y) := by
    rw [np_reshape3, if_pos hylen]
  have c1 : chunkList bs (X.length / bs) X
      = X.take bs :: chunkList bs m (X.drop bs) := by rw [hm]; rfl
  have c2 : chunkList bs (X.length / bs) y
      = y.take bs :: chunkList bs m (y.drop bs) := by rw [hm]; rfl
  have hprod : 0 < epochs * ((X.length / bs) * t.length) :=
    Nat.mul_pos (by omega) (Nat.mul_pos (by omega) (by omega))
  obtain ⟨l1, l2, l3, l4, l5⟩ :=
    epochLoop_spec integ bs a b c t (X.take bs :: chunkList bs m (X.drop bs))
      (y.take bs :: chunkList bs m (y.drop bs)) (X.length / bs) hI epochs
      ⟨[ones12, x0], [0], [0], [ones12, x0],
        [loss_batch bs x0 (X.take bs) (y.take bs) a b c]⟩
  simp only [train, e1, e2, c1, c2]
  refine ⟨_, _, _, _, _, rfl, ?_, ?_, ?_, ?_⟩
  · rw [List.length_dropLast, List.length_drop, l2, Nat.mul_assoc]
    simp only [List.length_cons, List.length_nil]
    omega
  · rw [List.length_dropLast, List.length_drop, l1, Nat.mul_assoc]
    simp only [List.length_cons, List.length_nil]
    omega
  · rw [List.length_dropLast, List.length_drop, l3, Nat.mul_assoc]
    simp only [List.length_cons, List.length_nil]
    omega
  · rw [List.length_dropLast, List.length_drop, l4]
    simp only [List.length_cons, List.length_nil]
    omega

/-- Witness for C10: a 2-sample dataset, `bs = 1`, one epoch and a 2-point
time grid with a stub integrator give records of length
`1 * (2/1) * 2 - 1 = 3` and one epoch snapshot. -/
theorem claim_C10_witness :
    ∃ (tf : List ℚ) (xf : List (Fin 12 → ℚ)) (J : List ℚ)
      (xep : List (Fin 12 → ℚ)) (Jep : List ℚ),
      train integ0 [uq, uq] [yhq, rq1] 1 1 zq 1 1 1 1 [0, 1]
          = Except.ok (tf, xf, J, xep, Jep)
        ∧ tf.length = 1 * ([uq, uq].length / 1) * [(0 : ℚ), 1].length - 1
        ∧ xf.length = 1 * ([uq, uq].length / 1) * [(0 : ℚ), 1].length - 1
        ∧ J.length = 1 * ([uq, uq].length / 1) * [(0 : ℚ), 1].length - 1
        ∧ xep.length = 1 :=
  claim_C10 integ0 [uq, uq] [yhq, rq1] 1 1 zq 1 1 1 1 [0, 1]
    (fun _ _ _ => rfl) (by decide) (by decide) (by decide) (by decide)
    (by decide) (by decide)

theorem hasDerivAt_of_forall_quadratic (f : ℝ → ℝ) (p q r t : ℝ)
    (h : ∀ s, f s = p * (s - t) ^ 2 + (q * (s - t) + r)) : HasDerivAt f q t := by
  have hf : f = fun s => p * (s - t) ^ 2 + (q * (s - t) + r) := funext fun s => h s
  rw [hf]
  have h2 := ((((hasDerivAt_id' t).sub_const t).pow 2).const_mul p).add
      ((((hasDerivAt_id' t).sub_const t).const_mul q).add_const r)
  convert h2 using 1
  ring

theorem cA0 : Fin.castAdd 6 (0 : Fin 6) = (0 : Fin 12) := rfl

theorem cA1 : Fin.castAdd 6 (1 : Fin 6) = (1 : Fin 12) := rfl

theorem cA2 : Fin.castAdd 6 (2 : Fin 6) = (2 : Fin 12) := rfl

theorem cA3 : Fin.castAdd 6 (3 : Fin 6) = (3 : Fin 12) := rfl

theorem cA4 : Fin.castAdd 6 (4 : Fin 6) = (4 : Fin 12) := rfl

theorem cA5 : Fin.castAdd 6 (5 : Fin 6) = (5 : Fin 12) := rfl

theorem nA0 : Fin.natAdd 6 (0 : Fin 6) = (6 : Fin 12) := rfl

theorem nA1 : Fin.natAdd 6 (1 : Fin 6) = (7 : Fin 12) := rfl

theorem nA2 : Fin.natAdd 6 (2 : Fin 6) = (8 : Fin 12) := rfl

theorem nA3 : Fin.natAdd 6 (3 : Fin 6) = (9 : Fin 12) := rfl

theorem nA4 : Fin.natAdd 6 (4 : Fin 6) = (10 : Fin 12) := rfl

theorem nA5 : Fin.natAdd 6 (5 : Fin 6) = (11 : Fin 12) := rfl

theorem aN0 : Fin.addNat (0 : Fin 6) 6 = (6 : Fin 12) := rfl

theorem aN1 : Fin.addNat (1 : Fin 6) 6 = (7 : Fin 12) := rfl

theorem aN2 : Fin.addNat (2 : Fin 6) 6 = (8 : Fin 12) := rfl

theorem aN3 : Fin.addNat (3 : Fin 6) 6 = (9 : Fin 12) := rfl

theorem aN4 : Fin.addNat (4 : Fin 6) 6 = (10 : Fin 12) := rfl

theorem aN5 : Fin.addNat (5 : Fin 6) 6 = (11 : Fin 12) := rfl

theorem fv0 : ((0 : Fin 12) : ℕ) = 0 := rfl

theorem fv1 : ((1 : Fin 12) : ℕ) = 1 := rfl

theorem fv2 : ((2 : Fin 12) : ℕ) = 2 := rfl

theorem fv3 : ((3 : Fin 12) : ℕ) = 3 := rfl

theorem fv4 : ((4 : Fin 12) : ℕ) = 4 := rfl

theorem fv5 : ((5 : Fin 12) : ℕ) = 5 := rfl

theorem fv6 : ((6 : Fin 12) : ℕ) = 6 := rfl

theorem fv7 : ((7 : Fin 12) : ℕ) = 7 := rfl

theorem fv8 : ((8 : Fin 12) : ℕ) = 8 := rfl

theorem fv9 : ((9 : Fin 12) : ℕ) = 9 := rfl

theorem fv10 : ((10 : Fin 12) : ℕ) = 10 := rfl

theorem fv11 : ((11 : Fin 12) : ℕ) = 11 := rfl

set_option maxHeartbeats 3200000 in
/-- Claim C1: for every state of the supported even length 12, inputs,
targets and hyperparameters, the closed-form `gradient` is the exact analytic
derivative of `loss` with respect to each state coordinate: the data term
differentiated through the linear map on the weight half with `2c*w` added
there (and only there), and `2b*dw` on the velocity half. -/
theorem claim_C1 (x : Fin 12 → ℝ) (u yh : Fin 2 → ℝ) (a b c : ℝ) (i : Fin 12) :
    HasDerivAt (fun s => NumpySimple.loss (Function.update x i s) u yh a b c)
      (NumpySimple.gradient x u yh a b c i) (x i) := by
  fin_cases i
  · refine hasDerivAt_of_forall_quadratic _ (a * u 0 ^ 2 + c) _
      (NumpySimple.loss x u yh a b c) _ (fun s => ?_)
    simp [NumpySimple.loss, NumpySimple.gradient, NumpySimple.dot,
      NumpySimple.simple_net, NumpySimple.wHalf, NumpySimple.dwHalf,
      NumpySimple.hstack, Function.update, Fin.sum_univ_six, Fin.sum_univ_two,
      cA0, cA1, cA2, cA3, cA4, cA5, nA0, nA1, nA2, nA3, nA4, nA5,
      aN0, aN1, aN2, aN3, aN4, aN5, fv0, fv1, fv2, fv3, fv4, fv5, fv6, fv7, fv8, fv9, fv10, fv11]
    ring
  · refine hasDerivAt_of_forall_quadratic _ (a * u 1 ^ 2 + c) _
      (NumpySimple.loss x u yh a b c) _ (fun s => ?_)
    simp [NumpySimple.loss, NumpySimple.gradient, NumpySimple.dot,
      NumpySimple.simple_net, NumpySimple.wHalf, NumpySimple.dwHalf,
      NumpySimple.hstack, Function.update, Fin.sum_univ_six, Fin.sum_univ_two,
      cA0, cA1, cA2, cA3, cA4, cA5, nA0, nA1, nA2, nA3, nA4, nA5,
      aN0, aN1, aN2, aN3, aN4, aN5, fv0, fv1, fv2, fv3, fv4, fv5, fv6, fv7, fv8, fv9, fv10, fv11]
    ring
  · refine hasDerivAt_of_forall_quadratic _ (a + c) _
      (NumpySimple.loss x u yh a b c) _ (fun s => ?_)
    simp [NumpySimple.loss, NumpySimple.gradient, NumpySimple.dot,
      NumpySimple.simple_net, NumpySimple.wHalf, NumpySimple.dwHalf,
      NumpySimple.hstack, Function.update, Fin.sum_univ_six, Fin.sum_univ_two,
      cA0, cA1, cA2, cA3, cA4, cA5, nA0, nA1, nA2, nA3, nA4, nA5,
      aN0, aN1, aN2, aN3, aN4, aN5, fv0, fv1, fv2, fv3, fv4, fv5, fv6, fv7, fv8, fv9, fv10, fv11]
    ring
  · refine hasDerivAt_of_forall_quadratic _ (a * u 0 ^ 2 + c) _
      (NumpySimple.loss x u yh a b c) _ (fun s => ?_)
    simp [NumpySimple.loss, NumpySimple.gradient, NumpySimple.dot,
      NumpySimple.simple_net, NumpySimple.wHalf, NumpySimple.dwHalf,
      NumpySimple.hstack, Function.update, Fin.sum_univ_six, Fin.sum_univ_two,
      cA0, cA1, cA2, cA3, cA4, cA5, nA0, nA1, nA2, nA3, nA4, nA5,
      aN0, aN1, aN2, aN3, aN4, aN5, fv0, fv1, fv2, fv3, fv4, fv5, fv6, fv7, fv8, fv9, fv10, fv11]
    ring
  · refine hasDerivAt_of_forall_quadratic _ (a * u 1 ^ 2 + c) _
      (NumpySimple.loss x u yh a b c) _ (fun s => ?_)
    simp [NumpySimple.loss, NumpySimple.gradient, NumpySimple.dot,
      NumpySimple.simple_net, NumpySimple.wHalf, NumpySimple.dwHalf,
      NumpySimple.hstack, Function.update, Fin.sum_univ_six, Fin.sum_univ_two,
      cA0, cA1, cA2, cA3, cA4, cA5, nA0, nA1, nA2, nA3, nA4, nA5,
      aN0, aN1, aN2, aN3, aN4, aN5, fv0, fv1, fv2, fv3, fv4, fv5, fv6, fv7, fv8, fv9, fv10, fv11]
    ring
  · refine hasDerivAt_of_forall_quadratic _ (a + c) _
      (NumpySimple.loss x u yh a b c) _ (fun s => ?_)
    simp [NumpySimple.loss, NumpySimple.gradient, NumpySimple.dot,
      NumpySimple.simple_net, NumpySimple.wHalf, NumpySimple.dwHalf,
      NumpySimple.hstack, Function.update, Fin.sum_univ_six, Fin.sum_univ_two,
      cA0, cA1, cA2, cA3, cA4, cA5, nA0, nA1, nA2, nA3, nA4, nA5,
      aN0, aN1, aN2, aN3, aN4, aN5, fv0, fv1, fv2, fv3, fv4, fv5, fv6, fv7, fv8, fv9, fv10, fv11]
    ring
  · refine hasDerivAt_of_forall_quadratic _ b _
      (NumpySimple.loss x u yh a b c) _ (fun s => ?_)
    simp [NumpySimple.loss, NumpySimple.gradient, NumpySimple.dot,
      NumpySimple.simple_net, NumpySimple.wHalf, NumpySimple.dwHalf,
      NumpySimple.hstack, Function.update, Fin.sum_univ_six, Fin.sum_univ_two,
      cA0, cA1, cA2, cA3, cA4, cA5, nA0, nA1, nA2, nA3, nA4, nA5,
      aN0, aN1, aN2, aN3, aN4, aN5, fv0, fv1, fv2, fv3, fv4, fv5, fv6, fv7, fv8, fv9, fv10, fv11]
    ring
  · refine hasDerivAt_of_forall_quadratic _ b _
      (NumpySimple.loss x u yh a b c) _ (fun s => ?_)
    simp [NumpySimple.loss, NumpySimple.gradient, NumpySimple.dot,
      NumpySimple.simple_net, NumpySimple.wHalf, NumpySimple.dwHalf,
      NumpySimple.hstack, Function.update, Fin.sum_univ_six, Fin.sum_univ_two,
      cA0, cA1, cA2, cA3, cA4, cA5, nA0, nA1, nA2, nA3, nA4, nA5,
      aN0, aN1, aN2, aN3, aN4, aN5, fv0, fv1, fv2, fv3, fv4, fv5, fv6, fv7, fv8, fv9, fv10, fv11]
    ring
  · refine hasDerivAt_of_forall_quadratic _ b _
      (NumpySimple.loss x u yh a b c) _ (fun s => ?_)
    simp [NumpySimple.loss, NumpySimple.gradient, NumpySimple.dot,
      NumpySimple.simple_net, NumpySimple.wHalf, NumpySimple.dwHalf,
      NumpySimple.hstack, Function.update, Fin.sum_univ_six, Fin.sum_univ_two,
      cA0, cA1, cA2, cA3, cA4, cA5, nA0, nA1, nA2, nA3, nA4, nA5,
      aN0, aN1, aN2, aN3, aN4, aN5, fv0, fv1, fv2, fv3, fv4, fv5, fv6, fv7, fv8, fv9, fv10, fv11]
    ring
  · refine hasDerivAt_of_forall_quadratic _ b _
      (NumpySimple.loss x u yh a b c) _ (fun s => ?_)
    simp [NumpySimple.loss, NumpySimple.gradient, NumpySimple.dot,
      NumpySimple.simple_net, NumpySimple.wHalf, NumpySimple.dwHalf,
      NumpySimple.hstack, Function.update, Fin.sum_univ_six, Fin.sum_univ_two,
      cA0, cA1, cA2, cA3, cA4, cA5, nA0, nA1, nA2, nA3, nA4, nA5,
      aN0, aN1, aN2, aN3, aN4, aN5, fv0, fv1, fv2, fv3, fv4, fv5, fv6, fv7, fv8, fv9, fv10, fv11]
    ring
  · refine hasDerivAt_of_forall_quadratic _ b _
      (NumpySimple.loss x u yh a b c) _ (fun s => ?_)
    simp [NumpySimple.loss, NumpySimple.gradient, NumpySimple.dot,
      NumpySimple.simple_net, NumpySimple.wHalf, NumpySimple.dwHalf,
      NumpySimple.hstack, Function.update, Fin.sum_univ_six, Fin.sum_univ_two,
      cA0, cA1, cA2, cA3, cA4, cA5, nA0, nA1, nA2, nA3, nA4, nA5,
      aN0, aN1, aN2, aN3, aN4, aN5, fv0, fv1, fv2, fv3, fv4, fv5, fv6, fv7, fv8, fv9, fv10, fv11]
    ring
  · refine hasDerivAt_of_forall_quadratic _ b _
      (NumpySimple.loss x u yh a b c) _ (fun s => ?_)
    simp [NumpySimple.loss, NumpySimple.gradient, NumpySimple.dot,
      NumpySimple.simple_net, NumpySimple.wHalf, NumpySimple.dwHalf,
      NumpySimple.hstack, Function.update, Fin.sum_univ_six, Fin.sum_univ_two,
      cA0, cA1, cA2, cA3, cA4, cA5, nA0, nA1, nA2, nA3, nA4, nA5,
      aN0, aN1, aN2, aN3, aN4, aN5, fv0, fv1, fv2, fv3, fv4, fv5, fv6, fv7, fv8, fv9, fv10, fv11]
    ring

end Claims
